import Mathlib

/-!
# Echoai job-matching core: a shallow embedding

This file embeds the matching core of the Echoai repository in Lean 4 and
proves (or refutes) the frozen specification claims about it.

Embedded source files:
* `backend/src/agent/tools/job_matcher.py`  (class `JobMatcher`)
* `backend/src/agent/memory/vector_store.py` (class `VectorStore`)
* `backend/src/agent/memory/database.py`     (class `Database`, SQLite schema)
* `backend/config/settings.py`               (matching-related settings)

Modelling conventions:
* Python floats are modelled as exact rationals (`ℚ`).  `round(x, 4)` is
  modelled as round-half-to-even at four decimal places (Python's `round`).
* Python string `.lower()` is modelled as ASCII char-wise lowercasing, and
  `needle in hay` as the substring test `substrOf`.
* External calls (FastEmbed embeddings, Groq chat) never raise into the
  pipeline (their wrappers catch internally and return `[]` / `""`); they are
  modelled as oracle functions carried by an `Env` structure.  The parsed
  JSON of a re-rank response is modelled structurally (`RerankResp`),
  `none` standing for an unparseable response.
* SQLite tables are modelled as lists of typed rows; `INSERT OR REPLACE`
  replaces exactly the rows that conflict on a uniqueness constraint of the
  table, as SQLite does.
* A Python `set` of strings has an implementation-defined iteration order;
  functions that iterate over one take the enumeration as an explicit list
  parameter, constrained by `SetEnum` in theorems.
-/

/-! ## Small utilities (Python string / list primitives) -/

/-- Python `s.lower()` (ASCII case folding, char by char). -/
def lowerString (s : String) : String := String.mk (s.data.map Char.toLower)

/-- Python `needle in hay` substring test. -/
def substrOf (needle hay : String) : Bool :=
  (List.range (hay.data.length + 1)).any (fun i => needle.data.isPrefixOf (hay.data.drop i))

/-- Insert one element into a sorted list (helper of `insSortBy`). -/
def insSortGo {α : Type} (le : α → α → Bool) (x : α) : List α → List α
  | [] => [x]
  | y :: ys => if le x y then x :: y :: ys else y :: insSortGo le x ys

/-- Stable insertion sort; models Python's stable `sorted` for a total
preorder key. -/
def insSortBy {α : Type} (le : α → α → Bool) : List α → List α
  | [] => []
  | x :: xs => insSortGo le x (insSortBy le xs)

/-! ## Settings (`config/settings.py`, matching block) -/

/-- The matching-relevant settings of `config/settings.py` (defaults:
`MATCH_THRESHOLD=0.55`, `LLM_RERANK_ENABLED=True`, `LLM_RERANK_MIN=0.50`,
`LLM_RERANK_MAX=0.65`, `EMBEDDING_DIM=768`). -/
structure Settings where
  match_threshold : ℚ
  llm_rerank_enabled : Bool
  llm_rerank_min : ℚ
  llm_rerank_max : ℚ
  embedding_dim : Nat
  deriving Repr

/-! ## Scoring helpers (`job_matcher.py`) -/

/-- Python `round(x, 4)`: round half to even at four decimal places
(exact-rational idealization of the float computation). -/
def round4 (q : ℚ) : ℚ :=
  let y : ℚ := q * 10000
  let f : ℤ := ⌊y⌋
  let n : ℤ :=
    if y - (f : ℚ) < 1/2 then f
    else if y - (f : ℚ) > 1/2 then f + 1
    else (if 2 ∣ f then f else f + 1)
  (n : ℚ) / 10000

/-- A Python value that can sit under the `llm_score` key of a match dict
(besides `None`): `num q` is a number — a JSON number, or the raw embed
score that `result.get("llm_score", score)` substitutes for a missing key —
on which `float()` succeeds; `nonNum f` is any non-numeric JSON value (a
string, array or object), on which `float()` succeeds exactly when the
value is a string Python can parse as a float.  The payload `f` carries
that library-level parse: `some q` when `float()` would return `q` (e.g.
the string "0.7"), `none` when it would raise `ValueError`/`TypeError`. -/
inductive PyScore where
  | num : ℚ → PyScore
  | nonNum : Option ℚ → PyScore
  deriving DecidableEq, Repr

/-- Python `float(v)`: the number itself, or the string-parse payload of a
non-numeric value (`none` = `float()` raises). -/
def pyFloat : PyScore → Option ℚ
  | .num q => some q
  | .nonNum f => f

/-- Models `JobMatcher._final_score`: weighted fusion when an LLM score
exists, plain rounding otherwise.  Note it takes only the embed score and
llm score — no role modifier enters.  `float(llm)` on a non-convertible
value raises, and `_final_score` has no handler, so the error propagates
(`Except.error`). -/
def final_score_fn (embed : ℚ) (llm : Option PyScore) : Except String ℚ :=
  match llm with
  | some l =>
      match pyFloat l with
      | some q => .ok (round4 (6/10 * embed + 4/10 * q))
      | none => .error "float() raised in _final_score"
  | none => .ok (round4 embed)

/-- The hard-coded unrelated-role terms of `JobMatcher._calculate_role_match`. -/
def unrelatedRoles : List String :=
  ["trainer", "sales", "hr", "recruiter", "marketing", "business development",
   "bpo", "customer support"]

/-- Models `JobMatcher._calculate_role_match(title, resume)`: returns
`(score_modifier, reason)`.  Empty title returns `(0, none)` first; then the
target-role scan (+0.15, first match wins); then the unrelated-role scan
(−0.5 for the first unrelated term contained in the title whose text is not
contained in any lower-cased target role). -/
def calculate_role_match (title : String) (target_roles_raw : List String) :
    ℚ × Option String :=
  if title = "" then (0, none)
  else
    let title_lower := lowerString title
    let target_roles := target_roles_raw.map lowerString
    match target_roles.find? (fun role => substrOf role title_lower) with
    | some role => (15/100, some ("Matches target role: " ++ role))
    | none =>
        match unrelatedRoles.find? (fun bad =>
            substrOf bad title_lower &&
            !(target_roles.any (fun t => substrOf bad t))) with
        | some bad => (-(1/2), some ("Role mismatch: " ++ bad))
        | none => (0, none)

/-- Claim C10's description of the role modifier, written from the spec's
words (not from the source): +0.15 if the lower-cased title contains any
lower-cased target role as a substring, otherwise −0.5 if the title
contains an unrelated-role term that does not also appear in the target
roles, otherwise 0. -/
def roleModifierSpec (title : String) (target_roles_raw : List String) : ℚ :=
  let t := lowerString title
  let rs := target_roles_raw.map lowerString
  if rs.any (fun r => substrOf r t) then 15/100
  else if unrelatedRoles.any (fun b =>
      substrOf b t && !(rs.any (fun x => substrOf b x))) then -(1/2)
  else 0

/-! ## Python dict primitives (for `id_map` and `meta`) -/

/-- Python `d[k] = v` on a `dict` with no duplicate keys: overwrite the
entry if the key is present, else append. -/
def dictSet {A : Type} : List (Nat × A) → Nat → A → List (Nat × A)
  | [], k, v => [(k, v)]
  | p :: rest, k, v => if p.1 = k then (k, v) :: rest else p :: dictSet rest k v

/-- Python `d.get(k)`. -/
def dictGet {A : Type} : List (Nat × A) → Nat → Option A
  | [], _ => none
  | p :: rest, k => if p.1 = k then some p.2 else dictGet rest k

/-! ## VectorStore (`vector_store.py`) -/

/-- The pickled sidecar `meta.pkl`: `{id_map, meta, next_idx}`. -/
structure Sidecar where
  id_map : List (Nat × Nat)
  meta : List (Nat × List (String × String))
  next_idx : Nat
  deriving DecidableEq, Repr

/-- The on-disk layout of a store directory.  The two layers of `Option`
distinguish a missing file (outer `none`) from a present-but-corrupt file
whose read raises (inner `none`). `resume_file` is `resume.npy`. -/
structure VSDisk where
  index_file : Option (Option (List (List ℚ)))
  meta_file : Option (Option Sidecar)
  resume_file : Option (List ℚ)
  deriving DecidableEq, Repr

/-- In-memory `VectorStore` state: the FAISS index contents (`ntotal` is
`vectors.length`), the two sidecar dicts, the position counter, and the
backing directory.

The stored vectors are modelled up to `_normalize`: the source divides each
non-zero vector by its (generally irrational) L2 norm before storage, a
per-vector positive rescaling that none of the properties proved in this
file depend on, so the model stores the padded/truncated vector unscaled
(the zero vector is stored as-is in both). -/
structure VSState where
  vectors : List (List ℚ)
  id_map : List (Nat × Nat)
  meta : List (Nat × List (String × String))
  next_idx : Nat
  disk : VSDisk
  deriving DecidableEq, Repr

/-- Models `VectorStore._init` after the faiss import: if both `jobs.index` and
`meta.pkl` exist, read both (a failing read raises out of `__init__`);
otherwise silently create a fresh empty `IndexFlatIP`. -/
def vs_init (disk : VSDisk) : Except String VSState :=
  match disk.index_file, disk.meta_file with
  | some idxread, some mfread =>
      match idxread with
      | none => .error "faiss.read_index failed"
      | some idx =>
          match mfread with
          | none => .error "pickle.load failed"
          | some sc => .ok ⟨idx, sc.id_map, sc.meta, sc.next_idx, disk⟩
  | _, _ => .ok ⟨[], [], [], 0, disk⟩

/-- Models `VectorStore._save`: write the index and the sidecar together. -/
def vs_save (st : VSState) : VSState :=
  { st with disk := { st.disk with
      index_file := some (some st.vectors),
      meta_file := some (some ⟨st.id_map, st.meta, st.next_idx⟩) } }

/-- Models `VectorStore.flush`. -/
def vs_flush (st : VSState) : VSState := vs_save st

/-- The dimension-mismatch repair in `add_job_vector` /
`save_resume_vector`: pad with zeros or truncate to `dim`. -/
def fit_dim (dim : Nat) (v : List ℚ) : List ℚ :=
  if v.length = dim then v
  else if v.length < dim then v ++ List.replicate (dim - v.length) 0
  else v.take dim

/-- Models `VectorStore.add_job_vector`: append the (normalized) vector to the
index, record `id_map[next_idx]` and `meta[next_idx]`, bump `next_idx`,
persist every 50 insertions, and return the assigned position. -/
def add_job_vector (dim : Nat) (st : VSState) (job_id : Nat)
    (embedding : List ℚ) (metadata : List (String × String)) :
    VSState × Nat :=
  let vec := fit_dim dim embedding
  let idx := st.next_idx
  let st1 : VSState :=
    { st with vectors := st.vectors ++ [vec],
              id_map := dictSet st.id_map idx job_id,
              meta := dictSet st.meta idx metadata,
              next_idx := idx + 1 }
  let st2 := if (idx + 1) % 50 = 0 then vs_save st1 else st1
  (st2, idx)

/-- Models `VectorStore.save_resume_vector`: overwrite `resume.npy`. -/
def save_resume_vector (dim : Nat) (st : VSState) (embedding : List ℚ) : VSState :=
  { st with disk := { st.disk with resume_file := some (fit_dim dim embedding) } }

/-- Models `VectorStore.get_resume_vector`: read `resume.npy` if it exists. -/
def get_resume_vector (st : VSState) : Option (List ℚ) := st.disk.resume_file

/-- Inner product of two stored vectors (faiss `IndexFlatIP`). -/
def dotQ (a b : List ℚ) : ℚ := ((a.zip b).map (fun p => p.1 * p.2)).sum

/-- Comparison used to model faiss exhaustive inner-product search: higher
score first, ties broken by lower position (insertion order). -/
def ipOrder (a b : ℚ × Int) : Bool :=
  decide (b.1 < a.1) || (decide (a.1 = b.1) && decide (a.2 ≤ b.2))

/-- faiss `IndexFlatIP.search` over the whole index: every position scored
against the query, ordered by descending inner product (ties by position),
truncated to `k`.  Positions are `Int` because faiss pads missing results
with `-1` (which cannot happen here since callers pass `k ≤ ntotal`). -/
def faiss_search (vecs : List (List ℚ)) (q : List ℚ) (k : Nat) :
    List (ℚ × Int) :=
  (insSortBy ipOrder (vecs.enum.map (fun p => (dotQ p.2 q, (p.1 : Int))))).take k

/-- One entry of `VectorStore.match_resume`'s result:
`{"job_id": ..., "score": ..., "meta": ...}`. -/
structure SearchHit where
  job_id : Option Nat
  score : ℚ
  meta : List (String × String)
  deriving DecidableEq, Repr

/-- The loop body of `match_resume`: skip faiss's `-1` padding positions,
otherwise attach `id_map` and `meta` entries to the scored position. -/
def hitOfRaw (st : VSState) (p : ℚ × Int) : Option SearchHit :=
  if p.2 < 0 then none
  else some { job_id := dictGet st.id_map p.2.toNat,
              score := p.1,
              meta := (dictGet st.meta p.2.toNat).getD [] }

/-- Models `VectorStore.match_resume(top_k)`: empty when no resume vector or empty
index; otherwise search with `k = min(top_k, ntotal)`, drop negative
positions, attach `id_map`/`meta` entries, and stably sort by descending
score. -/
def match_resume (st : VSState) (top_k : Nat) : List SearchHit :=
  match get_resume_vector st with
  | none => []
  | some rvec =>
      if st.vectors.length = 0 then []
      else
        let k := min top_k st.vectors.length
        let raw := faiss_search st.vectors rvec k
        insSortBy (fun a b => decide (b.score ≤ a.score)) (raw.filterMap (hitOfRaw st))

/-- Models `VectorStore.get_stats` (total_vectors / has_resume). -/
def get_stats_total (st : VSState) : Nat := st.vectors.length

/-! ## Position-assignment invariants (claims C9, C3) -/

/-- Index/metadata lockstep: every assigned position (below the counter)
has an `id_map` entry and a `meta` entry. -/
def Lockstep (st : VSState) : Prop :=
  ∀ p : Nat, p < st.next_idx → (dictGet st.id_map p).isSome ∧ (dictGet st.meta p).isSome

/-- A sequence of `add_job_vector` calls (the indexing loop of a pipeline
run), returning the final store and the list of assigned positions. -/
def add_many (dim : Nat) (st : VSState) :
    List (Nat × List ℚ × List (String × String)) → VSState × List Nat
  | [] => (st, [])
  | item :: rest =>
      let r := add_job_vector dim st item.1 item.2.1 item.2.2
      let r2 := add_many dim r.1 rest
      (r2.1, r.2 :: r2.2)

/-! ## Database (`database.py`) -/

/-- A row of the `jobs` table (the fields the matching core reads).
`skills_required` is stored as a JSON text column; the model carries the
parsed list (the `json.loads` adapter with `[]` fallback is folded in).
`scraped_at` is an ordinal timestamp used by `ORDER BY scraped_at DESC`. -/
structure Job where
  id : Nat
  title : String
  company : String
  location : String
  description : String
  skills_required : List String
  scraped_at : Nat
  is_active : Bool
  deriving DecidableEq, Repr

/-- The active resume row (the fields the matching core reads). -/
structure Resume where
  skills : List String
  tech_stack : List String
  target_roles : List String
  deriving DecidableEq, Repr

/-- The match dict built by `_build_match` (also the non-id columns of a
`job_matches` row). -/
structure MatchData where
  job_id : Nat
  embed_score : ℚ
  llm_score : Option PyScore
  final_score : ℚ
  match_reasons : List String
  skill_overlap : List String
  skill_gaps : List String
  llm_reasoning : String
  deriving DecidableEq, Repr

/-- A stored row of `job_matches`: `id INTEGER PRIMARY KEY AUTOINCREMENT`
plus the inserted columns. -/
structure MatchRow where
  id : Nat
  data : MatchData
  deriving DecidableEq, Repr

/-- A row of `skill_gaps` (`skill_name` UNIQUE, `frequency` default 1). -/
structure SkillGapRow where
  skill_name : String
  frequency : Nat
  our_level : String
  category : String
  deriving DecidableEq, Repr

/-- The SQLite database state (the tables the matching core touches). -/
structure DB where
  jobs : List Job
  job_matches : List MatchRow
  next_match_id : Nat
  resume : Option Resume
  skill_gaps : List SkillGapRow
  deriving DecidableEq, Repr

/-- The uniqueness constraints of `job_matches` relevant to `REPLACE`: only
the INTEGER PRIMARY KEY `id` — the schema declares no UNIQUE constraint on
`job_id`. -/
def matchRowsConflict (a b : MatchRow) : Bool := a.id == b.id

/-- Models `Database.save_match`: `INSERT OR REPLACE INTO job_matches (job_id, …)`.
SQLite's REPLACE deletes exactly the existing rows that would violate a
uniqueness constraint of the inserted row, then inserts.  `id` is not in
the column list, so the new row gets a fresh AUTOINCREMENT id; with no
UNIQUE on `job_id` nothing can conflict. -/
def save_match (db : DB) (m : MatchData) : DB :=
  let row : MatchRow := ⟨db.next_match_id, m⟩
  { db with
      job_matches := db.job_matches.filter (fun r => !(matchRowsConflict r row)) ++ [row],
      next_match_id := db.next_match_id + 1 }

/-- Models `Database.get_unmatched_jobs(limit)`: active jobs with no `job_matches`
row (LEFT JOIN … WHERE m.id IS NULL), newest scrape first, first `limit`. -/
def get_unmatched_jobs (db : DB) (limit : Nat) : List Job :=
  (insSortBy (fun a b => decide (b.scraped_at ≤ a.scraped_at))
    (db.jobs.filter (fun j =>
      !(db.job_matches.any (fun r => r.data.job_id == j.id)) && j.is_active))).take limit

/-- Models `Database.get_job_by_id`. -/
def get_job_by_id (db : DB) (jid : Nat) : Option Job :=
  db.jobs.find? (fun j => j.id == jid)

/-- Models `Database.get_active_resume` (the parsed fields the matcher reads). -/
def get_active_resume (db : DB) : Option Resume := db.resume

/-- Models `Database.bump_skill(skill)`: increment the frequency of an existing
`skill_gaps` row, else insert one with frequency 1, level "none",
category "general". -/
def bump_skill (db : DB) (skill : String) : DB :=
  if db.skill_gaps.any (fun r => r.skill_name == skill) then
    { db with skill_gaps := db.skill_gaps.map (fun r =>
        if r.skill_name == skill then { r with frequency := r.frequency + 1 } else r) }
  else
    { db with skill_gaps := db.skill_gaps ++ [⟨skill, 1, "none", "general"⟩] }

/-! ## The matching pipeline (`JobMatcher`) -/

/-- Models `JobMatcher._job_to_text`. -/
def job_to_text (job : Job) : String :=
  let parts := ["Title: " ++ job.title, "Company: " ++ job.company,
                "Location: " ++ job.location]
  let parts := if job.skills_required = [] then parts
    else parts ++ ["Skills: " ++ String.intercalate ", " job.skills_required]
  let parts := if job.description = "" then parts
    else parts ++ ["Description: " ++ job.description.take 800]
  String.intercalate "\n" parts

/-- The parsed JSON object of a re-rank response.  `llm_score = none`
means the key is absent; `some none` a JSON `null`; `some (some v)` any
other JSON value (a number, or a non-numeric value on which a later
`float()` may raise — see `PyScore`).  Likewise `reasoning` may be
absent. -/
structure RerankResp where
  llm_score : Option (Option PyScore)
  reasoning : Option String
  deriving DecidableEq, Repr

/-- Models `JobMatcher._llm_rerank` given the parsed response (`none` when
`json.loads` raised, including on the `""` that `GroqClient.chat` returns
after catching an API error — the bare `except` then returns `{}`).
Otherwise `llm_score = result.get("llm_score", score)` — a missing key
defaults to the raw embed score, a present key keeps the JSON value as is
— and `llm_reasoning = result.get("reasoning", "")`. -/
def llm_rerank (resp : Option RerankResp) (score : ℚ) :
    Option (Option PyScore × String) :=
  match resp with
  | none => none
  | some r =>
      some (match r.llm_score with
            | none => some (.num score)
            | some v => v,
            r.reasoning.getD "")

/-- Holds (as a `Bool`) when a parsed re-rank response cannot make
`_final_score`'s `float()` raise: the response is unparseable, or its
`llm_score` key is absent, `null`, or a `float()`-convertible value. -/
def resp_float_ok (resp : Option RerankResp) : Bool :=
  match resp with
  | none => true
  | some r =>
      match r.llm_score with
      | none => true
      | some none => true
      | some (some v) => (pyFloat v).isSome

/-- The candidate's skill set: lower-cased `skills + tech_stack`
(`_build_match`'s `r_skills`), as a duplicate-free representative list. -/
def resume_skill_set (resume : Option Resume) : List String :=
  (((resume.map (fun r => r.skills ++ r.tech_stack)).getD []).map lowerString).dedup

/-- The job's required-skill set, lower-cased (`_build_match`'s `j_skills`). -/
def job_skill_set (job : Job) : List String :=
  (job.skills_required.map lowerString).dedup

/-- Representative list of `r_skills & j_skills` (membership only; Python's
set intersection has no specified iteration order). -/
def inter_set (job : Job) (resume : Option Resume) : List String :=
  (job_skill_set job).filter (fun s => (resume_skill_set resume).contains s)

/-- Representative list of `j_skills - r_skills`. -/
def diff_set (job : Job) (resume : Option Resume) : List String :=
  (job_skill_set job).filter (fun s => !((resume_skill_set resume).contains s))

/-- Holds when `enum` is a possible Python-set iteration order of the set whose
members are those of `base`. -/
def SetEnum (enum base : List String) : Prop :=
  enum.Nodup ∧ ∀ x, x ∈ enum ↔ x ∈ base

/-- Models `JobMatcher._build_match(job, score, resume)` with the iteration orders
of the two Python sets (`overlap` and the uncapped gap set) passed
explicitly.  `final_score` is set to `score + role_modifier` here — and
overwritten later by `run`. -/
def build_match (job : Job) (score : ℚ) (resume : Option Resume)
    (overlapEnum gapsEnum : List String) : MatchData :=
  let overlap := overlapEnum
  let gaps := gapsEnum.take 6
  let reasons :=
    (if overlap = [] then []
     else ["Skill match: " ++ String.intercalate ", " (overlap.take 4)]) ++
    (if score > 7/10 then ["Strong semantic alignment with your profile"] else []) ++
    (if substrOf "fresher" (lowerString job.description) then ["Open to freshers"] else [])
  let rr := calculate_role_match job.title ((resume.map Resume.target_roles).getD [])
  let reasons := reasons ++ (match rr.2 with | some r => [r] | none => [])
  { job_id := job.id,
    embed_score := score,
    llm_score := none,
    final_score := score + rr.1,
    match_reasons := reasons,
    skill_overlap := overlap.take 8,
    skill_gaps := gaps,
    llm_reasoning := "" }

/-- The oracles a pipeline run consumes: embeddings (the wrapper catches
internally, `[]` on failure), parsed re-rank responses per job id, which
`save_match` calls hit a (swallowed) DB error, which `bump_skill` calls
raise a DB error (`bump_skill` has no try/except), and the Python-set
iteration orders used by `_build_match` per job id. -/
structure Env where
  embed : String → List ℚ
  rerank : Nat → Option RerankResp
  save_match_fails : Nat → Bool
  bump_skill_fails : String → Bool
  overlap_order : Nat → List String
  gaps_order : Nat → List String

/-- The indexing loop of `run` (step 1): embed each unmatched job, skip
jobs whose embedding comes back empty, insert the rest. -/
def index_jobs (cfg : Settings) (env : Env) (vs : VSState) :
    List Job → VSState × Nat
  | [] => (vs, 0)
  | job :: rest =>
      let e := env.embed (job_to_text job)
      if e = [] then index_jobs cfg env vs rest
      else
        let r := add_job_vector cfg.embedding_dim vs job.id e
          [("title", job.title), ("company", job.company)]
        let r2 := index_jobs cfg env r.1 rest
        (r2.1, r2.2 + 1)

/-- Models the `Database.bump_skill` loop over a match's skill gaps; `bump_skill` has
no exception handler, so a DB error raises out of the pipeline. -/
def bump_gaps (env : Env) : List String → DB → Except String DB
  | [], db => .ok db
  | g :: gs, db =>
      if env.bump_skill_fails g then .error "sqlite3 error in bump_skill"
      else bump_gaps env gs (bump_skill db g)

/-- The re-rank gate of `run`:
`self.rerank and self.rerank_min <= score <= self.rerank_max`, evaluated on
the raw (pre-modifier) embedding score. -/
def rerank_band (cfg : Settings) (score : ℚ) : Bool :=
  cfg.llm_rerank_enabled && decide (cfg.llm_rerank_min ≤ score) &&
    decide (score ≤ cfg.llm_rerank_max)

/-- Models `match.update(llm_result)` when `_llm_rerank` returned a non-empty
dict (sets `llm_score` and `llm_reasoning`), identity on the empty dict. -/
def rerank_update (m0 : MatchData) (resp : Option RerankResp) (score : ℚ) :
    MatchData :=
  match llm_rerank resp score with
  | some lr => { m0 with llm_score := lr.1, llm_reasoning := lr.2 }
  | none => m0

/-- The unconditional
`match["final_score"] = self._final_score(score, match.get("llm_score"))`
overwrite at the end of the loop body; `float()` raising inside
`_final_score` propagates (neither function has a handler). -/
def with_final (score : ℚ) (m1 : MatchData) : Except String MatchData :=
  match final_score_fn score m1.llm_score with
  | .ok f => .ok { m1 with final_score := f }
  | .error e => .error e

/-- The per-hit scoring of `run` (the loop body before admission):
`_build_match`, the conditional `_llm_rerank` on the raw embed score, then
the `final_score` overwrite (whose `float()` may raise). -/
def scored_match (cfg : Settings) (env : Env) (resume : Option Resume)
    (job : Job) (score : ℚ) : Except String MatchData :=
  with_final score
    (if rerank_band cfg score then
      rerank_update
        (build_match job score resume (env.overlap_order job.id) (env.gaps_order job.id))
        (env.rerank job.id) score
     else build_match job score resume (env.overlap_order job.id) (env.gaps_order job.id))

/-- The scoring loop of `run` (steps 3–8) over the search hits: coarse
filter at `threshold − 0.1`, job lookup, per-hit scoring (`scored_match`,
whose `_final_score` `float()` may raise out of the loop), and threshold
admission with `save_match` (errors swallowed inside it) plus skill-gap
accounting. -/
def process_hits (cfg : Settings) (env : Env) (resume : Option Resume) :
    List SearchHit → DB → Nat → Except String (DB × Nat)
  | [], db, matched => .ok (db, matched)
  | r :: rest, db, matched =>
      if r.score < cfg.match_threshold - 1/10 then
        process_hits cfg env resume rest db matched
      else
        match r.job_id with
        | none => process_hits cfg env resume rest db matched
        | some jid =>
            match get_job_by_id db jid with
            | none => process_hits cfg env resume rest db matched
            | some job =>
                match scored_match cfg env resume job r.score with
                | .error e => .error e
                | .ok m2 =>
                    if cfg.match_threshold ≤ m2.final_score then
                      match bump_gaps env m2.skill_gaps
                          (if env.save_match_fails job.id then db
                           else save_match db m2) with
                      | .error e => .error e
                      | .ok db2 => process_hits cfg env resume rest db2 (matched + 1)
                    else process_hits cfg env resume rest db matched

/-- The summary dict `{"matched": …, "indexed": …}` returned by `run`. -/
structure RunResult where
  matched : Nat
  indexed : Nat
  deriving DecidableEq, Repr

/-- Models `JobMatcher.run()`: index the unmatched jobs (limit 200), flush the
store, search the resume vector (top 200), early-return when there are no
vector results, then score/filter/re-rank/admit each hit.  (The source's
intermediate locals `unmatched`, `indexed`, `results` are inlined.) -/
def JobMatcher_run (cfg : Settings) (env : Env) (db : DB) (vs : VSState) :
    Except String (DB × VSState × RunResult) :=
  if match_resume (vs_flush (index_jobs cfg env vs (get_unmatched_jobs db 200)).1) 200 = [] then
    .ok (db, vs_flush (index_jobs cfg env vs (get_unmatched_jobs db 200)).1,
      ⟨0, (index_jobs cfg env vs (get_unmatched_jobs db 200)).2⟩)
  else
    match process_hits cfg env (get_active_resume db)
        (match_resume (vs_flush (index_jobs cfg env vs (get_unmatched_jobs db 200)).1) 200)
        db 0 with
    | .error e => .error e
    | .ok dbn => .ok (dbn.1,
        vs_flush (index_jobs cfg env vs (get_unmatched_jobs db 200)).1,
        ⟨dbn.2, (index_jobs cfg env vs (get_unmatched_jobs db 200)).2⟩)

/-! ## Pipeline invariants -/

/-- AUTOINCREMENT discipline: every stored `job_matches` row has an id
below the next id SQLite will hand out. -/
def FreshIds (db : DB) : Prop := ∀ r ∈ db.job_matches, r.id < db.next_match_id

/-- The C6 provenance facts every row saved by a run satisfies. -/
def RowOkC6 (cfg : Settings) (env : Env) (row : MatchRow) : Prop :=
  final_score_fn row.data.embed_score row.data.llm_score = .ok row.data.final_score ∧
  cfg.match_threshold ≤ row.data.final_score ∧
  (row.data.llm_score ≠ none →
      cfg.llm_rerank_enabled = true ∧
      cfg.llm_rerank_min ≤ row.data.embed_score ∧
      row.data.embed_score ≤ cfg.llm_rerank_max ∧
      (env.rerank row.data.job_id).isSome) ∧
  (¬ (cfg.llm_rerank_min ≤ row.data.embed_score ∧
      row.data.embed_score ≤ cfg.llm_rerank_max) →
      row.data.llm_score = none) ∧
  (env.rerank row.data.job_id = none → row.data.llm_score = none)

/-- Default-valued settings with a 2-dimensional embedding space. -/
def cfgD : Settings := ⟨11/20, true, 1/2, 13/20, 2⟩

/-- An empty store directory. -/
def diskE : VSDisk := ⟨none, none, none⟩

/-- A fresh database with no rows at all. -/
def dbE : DB := ⟨[], [], 0, none, []⟩

/-- A fresh, empty vector store. -/
def vsE : VSState := ⟨[], [], [], 0, diskE⟩

/-- Scenario C6: one active job; its embedding scores `0.6` against the
persisted resume vector (inside the re-rank band); the re-rank response
parses but carries no `llm_score` key. -/
def job6 : Job := ⟨1, "", "", "", "", [], 0, true⟩

def db6 : DB := ⟨[job6], [], 0, none, []⟩

def env6 : Env :=
  ⟨fun _ => [1, 0], fun _ => some ⟨none, some "ok"⟩, fun _ => false,
   fun _ => false, fun _ => [], fun _ => []⟩

def vs6 : VSState := ⟨[], [], [], 0, ⟨none, none, some [3/5, 4/5]⟩⟩

/-- Scenario C1: one active job titled "Sales Executive" (role penalty
−0.5 applies), embed score `0.8` (outside the re-rank band), no LLM
result. -/
def job1s : Job := ⟨1, "Sales Executive", "", "", "", [], 0, true⟩

def db1s : DB := ⟨[job1s], [], 0, none, []⟩

def env1s : Env :=
  ⟨fun _ => [1, 0], fun _ => none, fun _ => false, fun _ => false,
   fun _ => [], fun _ => []⟩

def vs1s : VSState := ⟨[], [], [], 0, ⟨none, none, some [4/5, 3/5]⟩⟩

/-- Scenario C2/C5 job: a single active job with empty text fields. -/
def job2 : Job := ⟨1, "", "", "", "", [], 0, true⟩

def db2s : DB := ⟨[job2], [], 0, none, []⟩

def env2s : Env :=
  ⟨fun _ => [1, 0], fun _ => none, fun _ => false, fun _ => false,
   fun _ => [], fun _ => []⟩

def vs2s : VSState := ⟨[], [], [], 0, ⟨none, none, some [4/5, 3/5]⟩⟩

/-- The database after the first C2 run: one admitted match row (id 0). -/
def db2a : DB :=
  ⟨[job2],
   [⟨0, ⟨1, 4/5, none, 4/5, ["Strong semantic alignment with your profile"],
     [], [], ""⟩⟩],
   1, none, []⟩

/-- The vector store after the first C2 run (flushed). -/
def vs2a : VSState :=
  ⟨[[1, 0]], [(0, 1)], [(0, [("title", ""), ("company", "")])], 1,
   ⟨some (some [[1, 0]]),
    some (some ⟨[(0, 1)], [(0, [("title", ""), ("company", "")])], 1⟩),
    some [4/5, 3/5]⟩⟩

def env5 : Env :=
  ⟨fun _ => [1, 0], fun _ => none, fun _ => false, fun _ => false,
   fun _ => [], fun _ => []⟩

/-- Scenario C5 store: the resume vector is orthogonal to every job
embedding, so every score is `0` and nothing passes the coarse filter. -/
def vs5 : VSState := ⟨[], [], [], 0, ⟨none, none, some [0, 1]⟩⟩

/-- The store after the first C5 run: job 1 embedded at position 0. -/
def vs5a : VSState :=
  ⟨[[1, 0]], [(0, 1)], [(0, [("title", ""), ("company", "")])], 1,
   ⟨some (some [[1, 0]]),
    some (some ⟨[(0, 1)], [(0, [("title", ""), ("company", "")])], 1⟩),
    some [0, 1]⟩⟩

/-- Scenario C4: the job is admitted and has a skill gap, and the
`bump_skill` write hits a database error (which `bump_skill`, unlike
`save_match`, does not catch). -/
def job4 : Job := ⟨1, "", "", "", "", ["SQL"], 0, true⟩

def db4 : DB := ⟨[job4], [], 0, none, []⟩

def env4 : Env :=
  ⟨fun _ => [1, 0], fun _ => none, fun _ => false, fun _ => true,
   fun _ => [], fun _ => ["sql"]⟩

def vs4 : VSState := ⟨[], [], [], 0, ⟨none, none, some [4/5, 3/5]⟩⟩

/-- Scenario C4-float: the job's embed score (0.6) is inside the re-rank
band and the re-rank response parses, but its `llm_score` value is a
non-numeric JSON value that `float()` cannot convert (e.g. the string
"high"). -/
def env4f : Env :=
  ⟨fun _ => [1, 0], fun _ => some ⟨some (some (.nonNum none)), some "why"⟩,
   fun _ => false, fun _ => false, fun _ => [], fun _ => []⟩

def vs4f : VSState := ⟨[], [], [], 0, ⟨none, none, some [3/5, 4/5]⟩⟩

/-- The claim's worked example: job `["Python","SQL"]`, candidate
`{"python"}`. -/
def job7ex : Job := ⟨2, "", "", "", "", ["Python", "SQL"], 0, true⟩

def res7ex : Resume := ⟨["python"], [], []⟩

/-- A job whose nine required skills are all among the candidate's. -/
def job7 : Job :=
  ⟨3, "", "", "", "", ["s1", "s2", "s3", "s4", "s5", "s6", "s7", "s8", "s9"], 0, true⟩

def res7 : Resume :=
  ⟨["s1", "s2", "s3", "s4", "s5", "s6", "s7", "s8", "s9"], [], []⟩

/-! ## Theorems -/

set_option maxRecDepth 10000

theorem insSortGo_perm {α : Type} (le : α → α → Bool) (x : α) (m : List α) :
    (insSortGo le x m).Perm (x :: m) := by
  induction m with
  | nil => exact List.Perm.refl _
  | cons y ys ihm =>
      simp only [insSortGo]
      by_cases h : le x y
      · simp [h]
      · simp only [h, if_neg, Bool.false_eq_true, not_false_iff]
        exact ((ihm).cons y).trans (List.Perm.swap x y ys)

theorem insSortBy_perm {α : Type} (le : α → α → Bool) (l : List α) :
    (insSortBy le l).Perm l := by
  induction l with
  | nil => exact List.Perm.refl _
  | cons x xs ih => exact (insSortGo_perm le x (insSortBy le xs)).trans (ih.cons x)

theorem insSortGo_pairwise {α : Type} (le : α → α → Bool)
    (htot : ∀ a b, le a b = true ∨ le b a = true)
    (htrans : ∀ a b c, le a b = true → le b c = true → le a c = true)
    (x : α) (m : List α) (hm : m.Pairwise (fun a b => le a b = true)) :
    (insSortGo le x m).Pairwise (fun a b => le a b = true) := by
  induction m with
  | nil => simp [insSortGo]
  | cons y ys ihm =>
      simp only [insSortGo]
      rcases List.pairwise_cons.1 hm with ⟨hy, hys⟩
      cases hxy : le x y with
      | true =>
          rw [if_pos rfl]
          refine List.pairwise_cons.2 ⟨?_, hm⟩
          intro b hb
          rcases List.mem_cons.1 hb with hby | hb2
          · subst hby; exact hxy
          · exact htrans _ _ _ hxy (hy _ hb2)
      | false =>
          rw [if_neg (by simp)]
          refine List.pairwise_cons.2 ⟨?_, ihm hys⟩
          have hyx : le y x = true := by
            rcases htot x y with hxy' | hyx
            · rw [hxy] at hxy'; exact absurd hxy' (by simp)
            · exact hyx
          intro b hb
          have hb' := (insSortGo_perm le x ys).mem_iff.1 hb
          rcases List.mem_cons.1 hb' with hbx | hbys
          · subst hbx; exact hyx
          · exact hy _ hbys

theorem insSortBy_pairwise {α : Type} (le : α → α → Bool)
    (htot : ∀ a b, le a b = true ∨ le b a = true)
    (htrans : ∀ a b c, le a b = true → le b c = true → le a c = true)
    (l : List α) :
    (insSortBy le l).Pairwise (fun a b => le a b = true) := by
  induction l with
  | nil => simp [insSortBy]
  | cons x xs ih => exact insSortGo_pairwise le htot htrans x _ ih

theorem find?_some_any {α : Type} (p : α → Bool) (l : List α) (a : α)
    (h : l.find? p = some a) : l.any p = true := by
  rw [List.any_eq_true]
  exact ⟨a, List.mem_of_find?_eq_some h, List.find?_some h⟩

theorem find?_none_any {α : Type} (p : α → Bool) (l : List α)
    (h : l.find? p = none) : l.any p = false := by
  rw [List.any_eq_false]
  intro x hx
  simpa using List.find?_eq_none.1 h x hx

/-- C10 (amended): for every title and target-role list, the modifier
returned by `_calculate_role_match` is exactly the claim's formula
(`roleModifierSpec`), except that an empty title short-circuits to `0.0`
before the target-role scan runs. -/
theorem C10_role_modifier (title : String) (roles : List String) :
    (calculate_role_match title roles).1 =
      if title = "" then 0 else roleModifierSpec title roles := by
  by_cases h0 : title = ""
  · simp [calculate_role_match, h0]
  · rw [if_neg h0]
    unfold calculate_role_match roleModifierSpec
    rw [if_neg h0]
    cases hf : (roles.map lowerString).find?
        (fun role => substrOf role (lowerString title)) with
    | some role =>
        simp only [hf]
        rw [if_pos (find?_some_any _ _ _ hf)]
    | none =>
        simp only [hf]
        rw [if_neg (by rw [find?_none_any _ _ hf]; exact Bool.false_ne_true)]
        cases hg : unrelatedRoles.find? (fun bad =>
            substrOf bad (lowerString title) &&
            !((roles.map lowerString).any (fun t => substrOf bad t))) with
        | some bad =>
            simp only [hg]
            rw [if_pos (find?_some_any _ _ _ hg)]
        | none =>
            simp only [hg]
            rw [if_neg (by rw [find?_none_any _ _ hg]; exact Bool.false_ne_true)]

/-- Witness for C10's theorem at a concrete input: a title that matches a
target role and also contains the unrelated term "sales" (itself listed as
a target role) still gets exactly +0.15. -/
theorem C10_role_modifier_witness :
    (calculate_role_match "Sales Engineer" ["engineer", "sales"]).1 =
      if "Sales Engineer" = "" then 0
      else roleModifierSpec "Sales Engineer" ["engineer", "sales"] :=
  C10_role_modifier "Sales Engineer" ["engineer", "sales"]

/-- Counterexample to C10 as stated: with an empty title and an empty
string among the target roles, the empty role is a substring of the title,
so the claim's formula gives +0.15, but `_calculate_role_match` returns 0.0
(the `if not title` guard runs first). -/
theorem C10_counterexample :
    substrOf "" (lowerString "") = true ∧
    roleModifierSpec "" [""] = 15/100 ∧
    (calculate_role_match "" [""]).1 = 0 ∧
    (15/100 : ℚ) ≠ 0 := by
  refine ⟨by decide, by norm_num [roleModifierSpec, substrOf, lowerString], by norm_num [calculate_role_match], by norm_num⟩

theorem dictGet_dictSet_self {A : Type} (d : List (Nat × A)) (k : Nat) (v : A) :
    dictGet (dictSet d k v) k = some v := by
  induction d with
  | nil => simp [dictSet, dictGet]
  | cons a d ih =>
      by_cases h : a.1 = k
      · simp [dictSet, dictGet, h]
      · simp [dictSet, dictGet, h, ih]

theorem dictGet_dictSet_ne {A : Type} (d : List (Nat × A)) (k k' : Nat) (v : A)
    (h : k' ≠ k) : dictGet (dictSet d k v) k' = dictGet d k' := by
  induction d with
  | nil => simp [dictSet, dictGet, Ne.symm h]
  | cons a d ih =>
      by_cases ha : a.1 = k
      · have ha' : ¬ (a.1 = k') := by rw [ha]; exact Ne.symm h
        simp [dictSet, dictGet, ha, ha', Ne.symm h]
      · by_cases ha' : a.1 = k'
        · simp [dictSet, dictGet, ha, ha', h]
        · simp [dictSet, dictGet, ha, ha', ih]

/-- C8: `match_resume` returns at most `min(k, ntotal)` hits, sorted by
non-increasing score; it is empty when the index is empty or no resume
vector is persisted; and it is a pure function of the store state, so
repeated calls on the same state return the same ordered results. -/
theorem C8_match_resume_shape (st : VSState) (top_k : Nat) :
    (match_resume st top_k).length ≤ min top_k st.vectors.length ∧
    (match_resume st top_k).Pairwise (fun a b => b.score ≤ a.score) ∧
    (get_resume_vector st = none → match_resume st top_k = []) ∧
    (st.vectors.length = 0 → match_resume st top_k = []) ∧
    match_resume st top_k = match_resume st top_k := by
  refine ⟨?_, ?_, ?_, ?_, rfl⟩
  · unfold match_resume
    cases hr : get_resume_vector st with
    | none => simp
    | some rvec =>
        by_cases h0 : st.vectors.length = 0
        · simp [h0]
        · simp only [h0, if_neg, if_false, reduceCtorEq]
          have hperm := insSortBy_perm
            (fun a b : SearchHit => decide (b.score ≤ a.score))
            ((faiss_search st.vectors rvec (min top_k st.vectors.length)).filterMap (hitOfRaw st))
          rw [hperm.length_eq]
          calc ((faiss_search st.vectors rvec (min top_k st.vectors.length)).filterMap (hitOfRaw st)).length
              ≤ (faiss_search st.vectors rvec (min top_k st.vectors.length)).length :=
                List.length_filterMap_le _ _
            _ ≤ min top_k st.vectors.length := by
                unfold faiss_search
                exact (List.length_take_le _ _)
  · unfold match_resume
    cases hr : get_resume_vector st with
    | none => simp
    | some rvec =>
        by_cases h0 : st.vectors.length = 0
        · simp [h0]
        · simp only [h0, if_neg, if_false, reduceCtorEq]
          have := insSortBy_pairwise
            (fun a b : SearchHit => decide (b.score ≤ a.score))
            (by intro a b
                rcases le_total b.score a.score with h | h
                · exact Or.inl (by simpa using h)
                · exact Or.inr (by simpa using h))
            (by intro a b c hab hbc
                simp only [decide_eq_true_eq] at *
                exact le_trans hbc hab)
            ((faiss_search st.vectors rvec (min top_k st.vectors.length)).filterMap (hitOfRaw st))
          exact this.imp (by intro a b h; simpa using h)
  · intro h
    unfold match_resume
    rw [h]
  · intro h
    unfold match_resume
    cases hr : get_resume_vector st with
    | none => rfl
    | some rvec => simp [h]

/-- Witness for C8 at a concrete store: two indexed vectors, a persisted
resume vector, `top_k = 5`. -/
theorem C8_match_resume_shape_witness :
    (match_resume
        ⟨[[1, 0], [0, 1]], [(0, 7), (1, 9)], [(0, []), (1, [])], 2,
         ⟨none, none, some [1, 0]⟩⟩ 5).length ≤
      min 5 ([[1, 0], [0, 1]] : List (List ℚ)).length ∧
    (match_resume
        ⟨[[1, 0], [0, 1]], [(0, 7), (1, 9)], [(0, []), (1, [])], 2,
         ⟨none, none, some [1, 0]⟩⟩ 5).Pairwise (fun a b => b.score ≤ a.score) :=
  ⟨(C8_match_resume_shape _ 5).1, (C8_match_resume_shape _ 5).2.1⟩

theorem add_job_vector_fields (dim : Nat) (st : VSState) (j : Nat)
    (e : List ℚ) (m : List (String × String)) :
    (add_job_vector dim st j e m).2 = st.next_idx ∧
    (add_job_vector dim st j e m).1.next_idx = st.next_idx + 1 ∧
    (add_job_vector dim st j e m).1.id_map = dictSet st.id_map st.next_idx j ∧
    (add_job_vector dim st j e m).1.meta = dictSet st.meta st.next_idx m ∧
    (add_job_vector dim st j e m).1.vectors = st.vectors ++ [fit_dim dim e] := by
  unfold add_job_vector
  by_cases h : (st.next_idx + 1) % 50 = 0 <;> simp [h, vs_save]

theorem add_job_vector_lockstep (dim : Nat) (st : VSState) (j : Nat)
    (e : List ℚ) (m : List (String × String)) (hst : Lockstep st) :
    Lockstep (add_job_vector dim st j e m).1 := by
  obtain ⟨-, hn, hid, hm, -⟩ := add_job_vector_fields dim st j e m
  intro p hp
  rw [hn] at hp
  rw [hid, hm]
  by_cases hpk : p = st.next_idx
  · subst hpk
    rw [dictGet_dictSet_self, dictGet_dictSet_self]
    exact ⟨rfl, rfl⟩
  · have hplt : p < st.next_idx := by omega
    rw [dictGet_dictSet_ne _ _ _ _ hpk, dictGet_dictSet_ne _ _ _ _ hpk]
    exact hst p hplt

theorem add_many_next_idx (dim : Nat) (items : List (Nat × List ℚ × List (String × String)))
    (st : VSState) :
    (add_many dim st items).1.next_idx = st.next_idx + items.length := by
  induction items generalizing st with
  | nil => simp [add_many]
  | cons item rest ih =>
      unfold add_many
      obtain ⟨-, hn, -, -, -⟩ := add_job_vector_fields dim st item.1 item.2.1 item.2.2
      rw [ih]
      rw [hn]
      simp
      omega

theorem add_many_positions (dim : Nat) (items : List (Nat × List ℚ × List (String × String)))
    (st : VSState) :
    (add_many dim st items).2 = List.range' st.next_idx items.length := by
  induction items generalizing st with
  | nil => simp [add_many]
  | cons item rest ih =>
      unfold add_many
      obtain ⟨hp, hn, -, -, -⟩ := add_job_vector_fields dim st item.1 item.2.1 item.2.2
      simp only [List.length_cons, List.range'_succ]
      rw [hp, ih, hn]

theorem add_many_lockstep (dim : Nat) (items : List (Nat × List ℚ × List (String × String)))
    (st : VSState) (hst : Lockstep st) :
    Lockstep (add_many dim st items).1 := by
  induction items generalizing st with
  | nil => simpa [add_many]
  | cons item rest ih =>
      unfold add_many
      exact ih _ (add_job_vector_lockstep dim st item.1 item.2.1 item.2.2 hst)

/-- C9: over any sequence of insertions the assigned positions are exactly
`next_idx, next_idx+1, …` — strictly increasing, never reusing a position
— the position counter and both sidecar dicts survive a save/reload round
trip exactly, and index/metadata lockstep is preserved, the new position
getting both an `id_map` and a `meta` entry. -/
theorem C9_positions_monotone (dim : Nat) (st : VSState)
    (items : List (Nat × List ℚ × List (String × String))) (hst : Lockstep st) :
    (add_many dim st items).2 = List.range' st.next_idx items.length ∧
    ((add_many dim st items).2).Pairwise (· < ·) ∧
    (∀ p ∈ (add_many dim st items).2, st.next_idx ≤ p) ∧
    (add_many dim st items).1.next_idx = st.next_idx + items.length ∧
    vs_init (vs_save (add_many dim st items).1).disk =
      Except.ok (vs_save (add_many dim st items).1) ∧
    Lockstep (add_many dim st items).1 := by
  refine ⟨add_many_positions dim items st, ?_, ?_, add_many_next_idx dim items st, rfl,
    add_many_lockstep dim items st hst⟩
  · rw [add_many_positions dim items st]
    exact List.pairwise_lt_range' _ _
  · rw [add_many_positions dim items st]
    intro p hp
    exact (List.mem_range'_1.1 hp).1

/-- Witness for C9 at a concrete store and insertion batch. -/
theorem C9_positions_monotone_witness :
    (add_many 2 ⟨[], [], [], 0, ⟨none, none, none⟩⟩
        [(7, [1, 0], []), (9, [0, 1], [])]).2 = List.range' 0 2 ∧
    ((add_many 2 ⟨[], [], [], 0, ⟨none, none, none⟩⟩
        [(7, [1, 0], []), (9, [0, 1], [])]).2).Pairwise (· < ·) :=
  ⟨(C9_positions_monotone 2 _ _ (by intro p hp; simp at hp)).1,
   (C9_positions_monotone 2 _ _ (by intro p hp; simp at hp)).2.1⟩

/-- C3 (amended): when BOTH artifacts are present, a failing read of either
(faiss index or pickled sidecar) is a fatal startup error that surfaces to
the caller; when both are present and loadable the persisted state is
restored; but when exactly one of the two files is present, `_init`
silently starts a fresh empty index, ignoring the existing artifact. -/
theorem C3_init_behavior (disk : VSDisk) :
    (∀ idxread, disk.index_file = some idxread → disk.meta_file = some none →
        idxread.isSome → vs_init disk = Except.error "pickle.load failed") ∧
    (∀ mfread, disk.index_file = some none → disk.meta_file = some mfread →
        vs_init disk = Except.error "faiss.read_index failed") ∧
    (∀ idx sc, disk.index_file = some (some idx) → disk.meta_file = some (some sc) →
        vs_init disk = Except.ok ⟨idx, sc.id_map, sc.meta, sc.next_idx, disk⟩) ∧
    (disk.index_file = none → vs_init disk = Except.ok ⟨[], [], [], 0, disk⟩) ∧
    (disk.meta_file = none → vs_init disk = Except.ok ⟨[], [], [], 0, disk⟩) := by
  refine ⟨?_, ?_, ?_, ?_, ?_⟩
  · rintro idxread h1 h2 h3
    unfold vs_init
    rw [h1, h2]
    rcases idxread with - | idx
    · simp at h3
    · rfl
  · rintro mfread h1 h2
    unfold vs_init
    rw [h1, h2]
  · rintro idx sc h1 h2
    unfold vs_init
    rw [h1, h2]
  · intro h1
    unfold vs_init
    rw [h1]
  · intro h2
    unfold vs_init
    rw [h2]
    cases h : disk.index_file <;> rfl

/-- Witness for C3's amended theorem: both files present, sidecar corrupt —
initialization fails fatally. -/
theorem C3_init_behavior_witness :
    vs_init ⟨some (some [[1, 0]]), some none, none⟩ =
      Except.error "pickle.load failed" :=
  (C3_init_behavior ⟨some (some [[1, 0]]), some none, none⟩).1
    (some [[1, 0]]) rfl rfl rfl

/-- Counterexample to C3 as stated: a persisted index file exists with no
metadata sidecar, yet `_init` succeeds (no error surfaces to the caller)
and returns a fresh empty store — the existing artifact is silently
ignored, contradicting "one exists without the other … is a fatal error". -/
theorem C3_counterexample :
    vs_init ⟨some (some [[1, 0], [0, 1]]), none, none⟩ =
      Except.ok ⟨[], [], [], 0, ⟨some (some [[1, 0], [0, 1]]), none, none⟩⟩ ∧
    (⟨some (some [[1, 0], [0, 1]]), none, none⟩ : VSDisk).index_file ≠ none := by
  exact ⟨rfl, by simp⟩

theorem save_match_append (db : DB) (m : MatchData) (h : FreshIds db) :
    (save_match db m).job_matches = db.job_matches ++ [⟨db.next_match_id, m⟩] ∧
    (save_match db m).jobs = db.jobs ∧
    (save_match db m).next_match_id = db.next_match_id + 1 ∧
    FreshIds (save_match db m) := by
  have hfilter : db.job_matches.filter
      (fun r => !(matchRowsConflict r ⟨db.next_match_id, m⟩)) = db.job_matches := by
    apply List.filter_eq_self.2
    intro r hr
    have hlt := h r hr
    simp only [matchRowsConflict, Bool.not_eq_eq_eq_not, Bool.not_true, beq_eq_false_iff_ne,
      ne_eq]
    omega
  refine ⟨?_, rfl, rfl, ?_⟩
  · show db.job_matches.filter _ ++ [⟨db.next_match_id, m⟩] =
      db.job_matches ++ [⟨db.next_match_id, m⟩]
    rw [hfilter]
  · intro r hr
    have hr' : r ∈ db.job_matches ++ [⟨db.next_match_id, m⟩] := by
      have : (save_match db m).job_matches =
          db.job_matches ++ [⟨db.next_match_id, m⟩] := by
        show db.job_matches.filter _ ++ [⟨db.next_match_id, m⟩] =
          db.job_matches ++ [⟨db.next_match_id, m⟩]
        rw [hfilter]
      rwa [this] at hr
    show r.id < db.next_match_id + 1
    rcases List.mem_append.1 hr' with hold | hnew
    · have := h r hold; omega
    · simp only [List.mem_singleton] at hnew
      subst hnew
      show db.next_match_id < db.next_match_id + 1
      omega

theorem bump_skill_frame (db : DB) (g : String) :
    (bump_skill db g).job_matches = db.job_matches ∧
    (bump_skill db g).next_match_id = db.next_match_id ∧
    (bump_skill db g).jobs = db.jobs := by
  unfold bump_skill
  by_cases h : db.skill_gaps.any (fun r => r.skill_name == g) <;> simp [h]

theorem bump_gaps_frame (env : Env) (gs : List String) :
    ∀ db db', bump_gaps env gs db = .ok db' →
      db'.job_matches = db.job_matches ∧
      db'.next_match_id = db.next_match_id ∧
      db'.jobs = db.jobs := by
  induction gs with
  | nil =>
      intro db db' h
      simp only [bump_gaps, Except.ok.injEq] at h
      subst h
      exact ⟨rfl, rfl, rfl⟩
  | cons g gs ih =>
      intro db db' h
      simp only [bump_gaps] at h
      by_cases hf : env.bump_skill_fails g = true
      · rw [if_pos hf] at h
        exact absurd h (by simp)
      · rw [if_neg hf] at h
        obtain ⟨h1, h2, h3⟩ := ih _ _ h
        obtain ⟨b1, b2, b3⟩ := bump_skill_frame db g
        exact ⟨h1.trans b1, h2.trans b2, h3.trans b3⟩

theorem bump_gaps_total (env : Env) (h : ∀ g, env.bump_skill_fails g = false)
    (gs : List String) : ∀ db, ∃ db', bump_gaps env gs db = .ok db' := by
  induction gs with
  | nil => intro db; exact ⟨db, rfl⟩
  | cons g gs ih =>
      intro db
      obtain ⟨db', hdb'⟩ := ih (bump_skill db g)
      refine ⟨db', ?_⟩
      simp only [bump_gaps, h g]
      simpa using hdb'

theorem rerank_band_false_of_out (cfg : Settings) (score : ℚ)
    (h : ¬ (cfg.llm_rerank_min ≤ score ∧ score ≤ cfg.llm_rerank_max)) :
    rerank_band cfg score = false := by
  by_cases h1 : cfg.llm_rerank_min ≤ score <;>
    by_cases h2 : score ≤ cfg.llm_rerank_max <;>
      simp [rerank_band, h1, h2]
  exact absurd ⟨h1, h2⟩ h

theorem with_final_ok (score : ℚ) (m1 m2 : MatchData)
    (h : with_final score m1 = .ok m2) :
    m2.job_id = m1.job_id ∧ m2.embed_score = m1.embed_score ∧
    m2.llm_score = m1.llm_score ∧
    final_score_fn score m2.llm_score = .ok m2.final_score ∧
    m2.skill_gaps = m1.skill_gaps ∧ m2.skill_overlap = m1.skill_overlap := by
  unfold with_final at h
  cases hf : final_score_fn score m1.llm_score with
  | error e => rw [hf] at h; exact absurd h (by simp)
  | ok f =>
      rw [hf] at h
      simp only [Except.ok.injEq] at h
      subst h
      exact ⟨rfl, rfl, rfl, by simpa using hf, rfl, rfl⟩

theorem scored_match_spec (cfg : Settings) (env : Env) (resume : Option Resume)
    (job : Job) (score : ℚ) (m2 : MatchData)
    (hok : scored_match cfg env resume job score = .ok m2) :
    m2.job_id = job.id ∧
    m2.embed_score = score ∧
    final_score_fn score m2.llm_score = .ok m2.final_score ∧
    (m2.llm_score ≠ none →
        cfg.llm_rerank_enabled = true ∧ cfg.llm_rerank_min ≤ score ∧
        score ≤ cfg.llm_rerank_max ∧ (env.rerank job.id).isSome) ∧
    (rerank_band cfg score = false → m2.llm_score = none) ∧
    (env.rerank job.id = none → m2.llm_score = none) ∧
    m2.skill_gaps = (env.gaps_order job.id).take 6 ∧
    m2.skill_overlap = (env.overlap_order job.id).take 8 := by
  unfold scored_match at hok
  by_cases hb : rerank_band cfg score = true
  · have hb' := hb
    simp only [rerank_band, Bool.and_eq_true, decide_eq_true_eq] at hb'
    obtain ⟨⟨hen, hmin⟩, hmax⟩ := hb'
    rw [if_pos hb] at hok
    cases hr : env.rerank job.id with
    | none =>
        rw [hr] at hok
        simp only [rerank_update, llm_rerank] at hok
        obtain ⟨w1, w2, w3, w4, w5, w6⟩ := with_final_ok _ _ _ hok
        have hllm : m2.llm_score = none := by
          rw [w3]; simp [build_match]
        refine ⟨by rw [w1]; simp [build_match], by rw [w2]; simp [build_match], w4,
          ?_, fun _ => hllm, fun _ => hllm,
          by rw [w5]; simp [build_match], by rw [w6]; simp [build_match]⟩
        intro hne
        exact absurd hllm hne
    | some resp =>
        rw [hr] at hok
        simp only [rerank_update, llm_rerank] at hok
        obtain ⟨w1, w2, w3, w4, w5, w6⟩ := with_final_ok _ _ _ hok
        refine ⟨by rw [w1]; simp [build_match], by rw [w2]; simp [build_match], w4,
          ?_, ?_, ?_,
          by rw [w5]; simp [build_match], by rw [w6]; simp [build_match]⟩
        · intro hne
          exact ⟨hen, hmin, hmax, rfl⟩
        · intro hfalse
          rw [hb] at hfalse
          exact absurd hfalse (by simp)
        · intro hnone
          exact absurd hnone (by simp)
  · rw [if_neg hb] at hok
    obtain ⟨w1, w2, w3, w4, w5, w6⟩ := with_final_ok _ _ _ hok
    have hllm : m2.llm_score = none := by
      rw [w3]; simp [build_match]
    refine ⟨by rw [w1]; simp [build_match], by rw [w2]; simp [build_match], w4,
      ?_, fun _ => hllm, fun _ => hllm,
      by rw [w5]; simp [build_match], by rw [w6]; simp [build_match]⟩
    intro hne
    exact absurd hllm hne

theorem scored_match_error (cfg : Settings) (env : Env) (resume : Option Resume)
    (job : Job) (score : ℚ) (e : String)
    (herr : scored_match cfg env resume job score = .error e) :
    resp_float_ok (env.rerank job.id) = false := by
  unfold scored_match at herr
  by_cases hb : rerank_band cfg score = true
  · rw [if_pos hb] at herr
    cases hr : env.rerank job.id with
    | none =>
        rw [hr] at herr
        simp [rerank_update, llm_rerank, with_final, final_score_fn, build_match] at herr
    | some r =>
        rw [hr] at herr
        cases hl : r.llm_score with
        | none =>
            simp [rerank_update, llm_rerank, hl, with_final, final_score_fn,
              build_match, pyFloat] at herr
        | some v =>
            cases v with
            | none =>
                simp [rerank_update, llm_rerank, hl, with_final, final_score_fn,
                  build_match] at herr
            | some pv =>
                cases hpv : pyFloat pv with
                | some q =>
                    simp [rerank_update, llm_rerank, hl, with_final, final_score_fn,
                      build_match, hpv] at herr
                | none =>
                    simp [resp_float_ok, hr, hl, hpv]
  · rw [if_neg hb] at herr
    simp [with_final, final_score_fn, build_match] at herr

theorem scored_row_ok (cfg : Settings) (env : Env) (resume : Option Resume)
    (job : Job) (score : ℚ) (rid : Nat) (m2 : MatchData)
    (hok : scored_match cfg env resume job score = .ok m2)
    (hadm : cfg.match_threshold ≤ m2.final_score) :
    RowOkC6 cfg env ⟨rid, m2⟩ := by
  obtain ⟨hjid, hemb, hfin, hne, hband, hnone, -, -⟩ :=
    scored_match_spec cfg env resume job score m2 hok
  refine ⟨?_, hadm, ?_, ?_, ?_⟩
  · show final_score_fn m2.embed_score m2.llm_score = .ok m2.final_score
    rw [hemb]
    exact hfin
  · intro h
    obtain ⟨h1, h2, h3, h4⟩ := hne h
    refine ⟨h1, ?_, ?_, ?_⟩
    · show cfg.llm_rerank_min ≤ m2.embed_score
      rw [hemb]; exact h2
    · show m2.embed_score ≤ cfg.llm_rerank_max
      rw [hemb]; exact h3
    · show (env.rerank (⟨rid, m2⟩ : MatchRow).data.job_id).isSome
      show (env.rerank m2.job_id).isSome
      rw [hjid]; exact h4
  · intro h
    refine hband (rerank_band_false_of_out cfg score ?_)
    simpa [hemb] using h
  · intro h
    show m2.llm_score = none
    apply hnone
    show env.rerank job.id = none
    have hj : (⟨rid, m2⟩ : MatchRow).data.job_id = job.id := hjid
    rw [hj] at h
    exact h

theorem process_hits_spec (cfg : Settings) (env : Env) (resume : Option Resume)
    (hits : List SearchHit) :
    ∀ db n db' n', FreshIds db →
      process_hits cfg env resume hits db n = .ok (db', n') →
      FreshIds db' ∧ db'.jobs = db.jobs ∧
      ∃ new, db'.job_matches = db.job_matches ++ new ∧
        ∀ row ∈ new, RowOkC6 cfg env row := by
  induction hits with
  | nil =>
      intro db n db' n' hfresh h
      simp only [process_hits, Except.ok.injEq, Prod.mk.injEq] at h
      obtain ⟨h1, -⟩ := h
      subst h1
      exact ⟨hfresh, rfl, [], by simp, by simp⟩
  | cons r rest ih =>
      intro db n db' n' hfresh h
      simp only [process_hits] at h
      by_cases hc : r.score < cfg.match_threshold - 1/10
      · rw [if_pos hc] at h
        exact ih db n db' n' hfresh h
      · rw [if_neg hc] at h
        split at h
        · exact ih db n db' n' hfresh h
        · rename_i jid hjid
          split at h
          · exact ih db n db' n' hfresh h
          · rename_i job hjob
            split at h
            · exact absurd h (by simp)
            · rename_i m2 hsm
              by_cases hadm : cfg.match_threshold ≤ m2.final_score
              · rw [if_pos hadm] at h
                split at h
                · exact absurd h (by simp)
                · rename_i db2 hbg
                  obtain ⟨hf1, hf2, hf3⟩ := bump_gaps_frame env _ _ _ hbg
                  by_cases hsv : env.save_match_fails job.id = true
                  · rw [if_pos hsv] at hf1 hf2 hf3
                    have hfresh2 : FreshIds db2 := by
                      intro q hq
                      rw [hf1] at hq
                      rw [hf2]
                      exact hfresh q hq
                    obtain ⟨ha, hb, new, hnew, hok⟩ := ih db2 (n + 1) db' n' hfresh2 h
                    exact ⟨ha, hb.trans hf3, new, by rw [hnew, hf1], hok⟩
                  · rw [if_neg hsv] at hf1 hf2 hf3
                    obtain ⟨hs1, hs2, hs3, hs4⟩ := save_match_append db m2 hfresh
                    have hfresh2 : FreshIds db2 := by
                      intro q hq
                      rw [hf1] at hq
                      rw [hf2]
                      exact hs4 q hq
                    obtain ⟨ha, hb, new, hnew, hok⟩ := ih db2 (n + 1) db' n' hfresh2 h
                    refine ⟨ha, hb.trans (hf3.trans hs2),
                      ⟨db.next_match_id, m2⟩ :: new, ?_, ?_⟩
                    · rw [hnew, hf1, hs1]
                      simp
                    · intro row hrow
                      rcases List.mem_cons.1 hrow with hrow1 | hrow2
                      · subst hrow1
                        exact scored_row_ok cfg env resume job r.score
                          db.next_match_id m2 hsm hadm
                      · exact hok row hrow2
              · rw [if_neg hadm] at h
                exact ih db n db' n' hfresh h

theorem bump_gaps_error (env : Env) (gs : List String) :
    ∀ db e, bump_gaps env gs db = .error e → ∃ g, env.bump_skill_fails g = true := by
  induction gs with
  | nil =>
      intro db e h
      simp [bump_gaps] at h
  | cons g gs ih =>
      intro db e h
      simp only [bump_gaps] at h
      by_cases hf : env.bump_skill_fails g = true
      · exact ⟨g, hf⟩
      · rw [if_neg hf] at h
        exact ih _ _ h

theorem process_hits_no_error (cfg : Settings) (env : Env) (resume : Option Resume)
    (hits : List SearchHit) :
    ∀ db n e, process_hits cfg env resume hits db n = .error e →
      (∃ g, env.bump_skill_fails g = true) ∨
      (∃ j, resp_float_ok (env.rerank j) = false) := by
  induction hits with
  | nil =>
      intro db n e h
      simp [process_hits] at h
  | cons r rest ih =>
      intro db n e h
      simp only [process_hits] at h
      by_cases hc : r.score < cfg.match_threshold - 1/10
      · rw [if_pos hc] at h
        exact ih db n e h
      · rw [if_neg hc] at h
        split at h
        · exact ih db n e h
        · rename_i jid hjid
          split at h
          · exact ih db n e h
          · rename_i job hjob
            split at h
            · rename_i e2 hsm
              simp only [Except.error.injEq] at h
              subst h
              exact Or.inr ⟨job.id, scored_match_error cfg env resume job r.score e2 hsm⟩
            · rename_i m2 hsm
              by_cases hadm : cfg.match_threshold ≤ m2.final_score
              · rw [if_pos hadm] at h
                split at h
                · rename_i e2 hbg
                  simp only [Except.error.injEq] at h
                  subst h
                  exact Or.inl (bump_gaps_error env _ _ _ hbg)
                · rename_i db2 hbg
                  exact ih db2 (n + 1) e h
              · rw [if_neg hadm] at h
                exact ih db n e h

theorem process_hits_total (cfg : Settings) (env : Env) (resume : Option Resume)
    (hb : ∀ g, env.bump_skill_fails g = false)
    (hf : ∀ j, resp_float_ok (env.rerank j) = true) (hits : List SearchHit) :
    ∀ db n, ∃ out, process_hits cfg env resume hits db n = .ok out := by
  intro db n
  cases hres : process_hits cfg env resume hits db n with
  | ok out => exact ⟨out, rfl⟩
  | error e =>
      rcases process_hits_no_error cfg env resume hits db n e hres with ⟨g, hg⟩ | ⟨j, hj⟩
      · rw [hb g] at hg
        exact absurd hg (by simp)
      · rw [hf j] at hj
        exact absurd hj (by simp)

/-- C4 (amended): if no `bump_skill` call hits a database error and no
parseable re-rank response carries a non-`float()`-convertible `llm_score`
value, `run` always returns a summary: per-item embedding failures (empty
vector), unparseable re-rank responses and `save_match` failures are all
absorbed.  (The two excluded per-item failures really do escape — a
raising `bump_skill` has no try/except, and `float(llm)` in `_final_score`
raises on a non-numeric `llm_score` JSON value; see the counterexample.) -/
theorem C4_run_no_raise (cfg : Settings) (env : Env) (db : DB) (vs : VSState)
    (hb : ∀ g, env.bump_skill_fails g = false)
    (hf : ∀ j, resp_float_ok (env.rerank j) = true) :
    ∃ out, JobMatcher_run cfg env db vs = .ok out := by
  unfold JobMatcher_run
  by_cases hres : match_resume
      (vs_flush (index_jobs cfg env vs (get_unmatched_jobs db 200)).1) 200 = []
  · rw [if_pos hres]
    exact ⟨_, rfl⟩
  · rw [if_neg hres]
    obtain ⟨out, hok⟩ := process_hits_total cfg env (get_active_resume db) hb hf
      (match_resume (vs_flush (index_jobs cfg env vs (get_unmatched_jobs db 200)).1) 200)
      db 0
    rw [hok]
    exact ⟨_, rfl⟩

/-- Witness for C4's amended theorem at a concrete state (one active job,
successful embedding, no bump failures). -/
theorem C4_run_no_raise_witness :
    ∃ out, JobMatcher_run ⟨11/20, true, 1/2, 13/20, 2⟩
      ⟨fun _ => [1, 0], fun _ => none, fun _ => false, fun _ => false,
       fun _ => [], fun _ => []⟩
      ⟨[⟨1, "", "", "", "", [], 0, true⟩], [], 0, none, []⟩
      ⟨[], [], [], 0, ⟨none, none, none⟩⟩ = .ok out :=
  C4_run_no_raise _ _ _ _ (fun _ => rfl) (fun _ => rfl)

/-- C6 (amended): every match row added by a run has `llm_score ≠ None`
only when re-rank is enabled, the raw (pre-modifier) embed score lies in
`[rerank_min, rerank_max]`, and the re-rank response parsed as a JSON
object; a raw score outside the band, or an unparseable response, always
leaves `llm_score = None`.  (A response that parses but lacks the
`llm_score` key yields `llm_score` defaulted to the raw embed score — see
the counterexample.) -/
theorem C6_llm_provenance (cfg : Settings) (env : Env) (db : DB)
    (vs : VSState) (db' : DB) (vs' : VSState) (res : RunResult)
    (hfresh : FreshIds db)
    (h : JobMatcher_run cfg env db vs = .ok (db', vs', res)) :
    ∃ new, db'.job_matches = db.job_matches ++ new ∧
      ∀ row ∈ new,
        (row.data.llm_score ≠ none →
            cfg.llm_rerank_enabled = true ∧
            cfg.llm_rerank_min ≤ row.data.embed_score ∧
            row.data.embed_score ≤ cfg.llm_rerank_max ∧
            (env.rerank row.data.job_id).isSome) ∧
        (¬ (cfg.llm_rerank_min ≤ row.data.embed_score ∧
            row.data.embed_score ≤ cfg.llm_rerank_max) →
            row.data.llm_score = none) ∧
        (env.rerank row.data.job_id = none → row.data.llm_score = none) := by
  unfold JobMatcher_run at h
  by_cases hres : match_resume
      (vs_flush (index_jobs cfg env vs (get_unmatched_jobs db 200)).1) 200 = []
  · rw [if_pos hres] at h
    simp only [Except.ok.injEq, Prod.mk.injEq] at h
    obtain ⟨h1, -, -⟩ := h
    subst h1
    exact ⟨[], by simp, by simp⟩
  · rw [if_neg hres] at h
    split at h
    · exact absurd h (by simp)
    · rename_i dbn hdbn
      simp only [Except.ok.injEq, Prod.mk.injEq] at h
      obtain ⟨h1, -, -⟩ := h
      subst h1
      obtain ⟨-, -, new, hnew, hok⟩ := process_hits_spec cfg env (get_active_resume db)
        (match_resume (vs_flush (index_jobs cfg env vs (get_unmatched_jobs db 200)).1) 200)
        db 0 dbn.1 dbn.2 hfresh hdbn
      refine ⟨new, hnew, ?_⟩
      intro row hrow
      obtain ⟨-, -, hc1, hc2, hc3⟩ := hok row hrow
      exact ⟨hc1, hc2, hc3⟩

/-- Counterexample to C6 as stated: the re-rank response parses but has no
`llm_score` key (a malformed response under the documented
`{score, reasoning}` contract), yet the persisted match carries
`llm_score = 0.6` — the raw embed score — rather than staying `None`:
`result.get("llm_score", score)` silently substitutes the embed score. -/
theorem C6_counterexample :
    env6.rerank 1 = some ⟨none, some "ok"⟩ ∧
    (JobMatcher_run cfgD env6 db6 vs6).map
      (fun out => (out.1.job_matches.map
        (fun r => (r.data.job_id, r.data.embed_score, r.data.llm_score)), out.2.2)) =
      .ok ([(1, 3/5, some (PyScore.num (3/5)))], ⟨1, 1⟩) := by
  refine ⟨rfl, ?_⟩
  norm_num [JobMatcher_run, get_unmatched_jobs, index_jobs, job_to_text, add_job_vector,
    fit_dim, vs_save, vs_flush, match_resume, get_resume_vector, faiss_search, dotQ,
    ipOrder, hitOfRaw, insSortBy, insSortGo, dictGet, dictSet, get_active_resume,
    process_hits, scored_match, with_final, rerank_update, rerank_band, llm_rerank,
    pyFloat, build_match, calculate_role_match, final_score_fn, round4, save_match,
    matchRowsConflict, bump_gaps, bump_skill, get_job_by_id, substrOf, lowerString,
    unrelatedRoles, db6, job6, env6, vs6, cfgD, Except.map, List.enum, List.enumFrom,
    List.filterMap, List.filter, reduceCtorEq, List.cons_ne_nil, ne_eq]

/-- Witness for C6's amended theorem, at a state with no jobs and no resume
vector (the run early-returns with an unchanged database). -/
theorem C6_llm_provenance_witness :
    ∃ new, dbE.job_matches = dbE.job_matches ++ new ∧
      ∀ row ∈ new,
        (row.data.llm_score ≠ none →
            cfgD.llm_rerank_enabled = true ∧
            cfgD.llm_rerank_min ≤ row.data.embed_score ∧
            row.data.embed_score ≤ cfgD.llm_rerank_max ∧
            (env6.rerank row.data.job_id).isSome) ∧
        (¬ (cfgD.llm_rerank_min ≤ row.data.embed_score ∧
            row.data.embed_score ≤ cfgD.llm_rerank_max) →
            row.data.llm_score = none) ∧
        (env6.rerank row.data.job_id = none → row.data.llm_score = none) :=
  C6_llm_provenance cfgD env6 dbE vsE dbE
    (vs_flush (index_jobs cfgD env6 vsE (get_unmatched_jobs dbE 200)).1) ⟨0, 0⟩
    (by intro r hr; simp [dbE] at hr) rfl

/-- C1 (the code at the claim's failing input): the title carries a
`-0.5` role modifier, yet the persisted `final_score` is exactly
`round(embed_score, 4) = 0.8` with no modifier added — `run` overwrites
the `_build_match` final score (which did include the modifier) with
`_final_score(score, llm)`, which ignores it.  The claim (and spec step 6)
require `0.8 − 0.5 = 0.3`. -/
theorem C1_final_score_drops_role_modifier :
    (calculate_role_match "Sales Executive" []).1 = -(1/2) ∧
    (JobMatcher_run cfgD env1s db1s vs1s).map
      (fun out => (out.1.job_matches.map
        (fun r => (r.data.job_id, r.data.embed_score, r.data.llm_score,
          r.data.final_score)), out.2.2)) =
      .ok ([(1, 4/5, none, 4/5)], ⟨1, 1⟩) ∧
    (4/5 : ℚ) ≠ round4 (4/5) + (-(1/2)) := by
  refine ⟨rfl, ?_, ?_⟩
  · norm_num [JobMatcher_run, get_unmatched_jobs, index_jobs, job_to_text, add_job_vector,
      fit_dim, vs_save, vs_flush, match_resume, get_resume_vector, faiss_search, dotQ,
      ipOrder, hitOfRaw, insSortBy, insSortGo, dictGet, dictSet, get_active_resume,
      process_hits, scored_match, with_final, rerank_update, rerank_band, llm_rerank,
      pyFloat, build_match, calculate_role_match, final_score_fn, round4, save_match,
      matchRowsConflict, bump_gaps, bump_skill, get_job_by_id, substrOf, lowerString,
      unrelatedRoles, db1s, job1s, env1s, vs1s, cfgD, Except.map, List.enum,
      List.enumFrom, List.filterMap, List.filter, reduceCtorEq, List.cons_ne_nil, ne_eq]
  · norm_num [round4]

/-- C2 at the failing input: the first run admits the job once; re-running
on the unchanged state yields `indexed = 0` and the same `matched = 1`,
but the `job_matches` table then holds TWO rows for job 1 (ids 0 and 1)
with identical scores — `INSERT OR REPLACE` never fires because
`job_matches` has no UNIQUE constraint on `job_id`, so the re-match is
duplicated, not replaced. -/
theorem C2_rerun_duplicates :
    JobMatcher_run cfgD env2s db2s vs2s = .ok (db2a, vs2a, ⟨1, 1⟩) ∧
    (JobMatcher_run cfgD env2s db2a vs2a).map
      (fun out => (out.1.job_matches.map
        (fun r => (r.id, r.data.job_id, r.data.final_score)), out.2.2)) =
      .ok ([(0, 1, 4/5), (1, 1, 4/5)], ⟨1, 0⟩) := by
  constructor
  · norm_num [JobMatcher_run, get_unmatched_jobs, index_jobs, job_to_text, add_job_vector,
      fit_dim, vs_save, vs_flush, match_resume, get_resume_vector, faiss_search, dotQ,
      ipOrder, hitOfRaw, insSortBy, insSortGo, dictGet, dictSet, get_active_resume,
      process_hits, scored_match, with_final, rerank_update, rerank_band, llm_rerank,
      pyFloat, build_match, calculate_role_match, final_score_fn, round4, save_match,
      matchRowsConflict, bump_gaps, bump_skill, get_job_by_id, substrOf, lowerString,
      unrelatedRoles, db2s, job2, env2s, vs2s, db2a, vs2a, cfgD, Except.map, List.enum,
      List.enumFrom, List.filterMap, List.filter, reduceCtorEq, List.cons_ne_nil, ne_eq]
  · norm_num [JobMatcher_run, get_unmatched_jobs, index_jobs, job_to_text, add_job_vector,
      fit_dim, vs_save, vs_flush, match_resume, get_resume_vector, faiss_search, dotQ,
      ipOrder, hitOfRaw, insSortBy, insSortGo, dictGet, dictSet, get_active_resume,
      process_hits, scored_match, with_final, rerank_update, rerank_band, llm_rerank,
      pyFloat, build_match, calculate_role_match, final_score_fn, round4, save_match,
      matchRowsConflict, bump_gaps, bump_skill, get_job_by_id, substrOf, lowerString,
      unrelatedRoles, db2s, job2, env2s, vs2s, db2a, vs2a, cfgD, Except.map, List.enum,
      List.enumFrom, List.filterMap, List.filter, reduceCtorEq, List.cons_ne_nil, ne_eq]
    rfl

/-- C5: `get_unmatched_jobs` returns every active job with no match row
(whatever earlier runs embedded), so a run re-embeds such jobs afresh:
with one never-admitted job, the first run returns `indexed = 1`, and the
second run on the unchanged database again returns `indexed = 1`, leaving
the index with two positions (0 and 1) both mapped to job 1. -/
theorem C5_reembeds_unmatched :
    (∀ (db : DB) (limit : Nat) (job : Job), job ∈ db.jobs → job.is_active = true →
        (∀ r ∈ db.job_matches, r.data.job_id ≠ job.id) → db.jobs.length ≤ limit →
        job ∈ get_unmatched_jobs db limit) ∧
    JobMatcher_run cfgD env5 db2s vs5 = .ok (db2s, vs5a, ⟨0, 1⟩) ∧
    (JobMatcher_run cfgD env5 db2s vs5a).map
      (fun out => (out.2.1.id_map, out.2.1.vectors.length, out.2.2)) =
      .ok ([(0, 1), (1, 1)], 2, ⟨0, 1⟩) := by
  refine ⟨?_, ?_, ?_⟩
  · intro db limit job hmem hact hnom hlen
    unfold get_unmatched_jobs
    have hfil : job ∈ db.jobs.filter (fun j =>
        !(db.job_matches.any (fun r => r.data.job_id == j.id)) && j.is_active) := by
      apply List.mem_filter.2
      refine ⟨hmem, ?_⟩
      have hany : db.job_matches.any (fun r => r.data.job_id == job.id) = false := by
        rw [List.any_eq_false]
        intro r hr
        simpa using hnom r hr
      simp [hany, hact]
    have hsorted := insSortBy_perm
      (fun a b : Job => decide (b.scraped_at ≤ a.scraped_at))
      (db.jobs.filter (fun j =>
        !(db.job_matches.any (fun r => r.data.job_id == j.id)) && j.is_active))
    have hmem2 : job ∈ insSortBy (fun a b : Job => decide (b.scraped_at ≤ a.scraped_at))
        (db.jobs.filter (fun j =>
          !(db.job_matches.any (fun r => r.data.job_id == j.id)) && j.is_active)) :=
      hsorted.mem_iff.2 hfil
    have hle : (insSortBy (fun a b : Job => decide (b.scraped_at ≤ a.scraped_at))
        (db.jobs.filter (fun j =>
          !(db.job_matches.any (fun r => r.data.job_id == j.id)) && j.is_active))).length
        ≤ limit := by
      rw [hsorted.length_eq]
      exact le_trans (List.length_filter_le _ _) hlen
    rw [List.take_of_length_le hle]
    exact hmem2
  · norm_num [JobMatcher_run, get_unmatched_jobs, index_jobs, job_to_text, add_job_vector,
      fit_dim, vs_save, vs_flush, match_resume, get_resume_vector, faiss_search, dotQ,
      ipOrder, hitOfRaw, insSortBy, insSortGo, dictGet, dictSet, get_active_resume,
      process_hits, scored_match, with_final, rerank_update, rerank_band, llm_rerank,
      pyFloat, build_match, calculate_role_match, final_score_fn, round4, save_match,
      matchRowsConflict, bump_gaps, bump_skill, get_job_by_id, substrOf, lowerString,
      unrelatedRoles, db2s, job2, env5, vs5, vs5a, cfgD, Except.map, List.enum,
      List.enumFrom, List.filterMap, List.filter, reduceCtorEq, List.cons_ne_nil, ne_eq]
  · norm_num [JobMatcher_run, get_unmatched_jobs, index_jobs, job_to_text, add_job_vector,
      fit_dim, vs_save, vs_flush, match_resume, get_resume_vector, faiss_search, dotQ,
      ipOrder, hitOfRaw, insSortBy, insSortGo, dictGet, dictSet, get_active_resume,
      process_hits, scored_match, with_final, rerank_update, rerank_band, llm_rerank,
      pyFloat, build_match, calculate_role_match, final_score_fn, round4, save_match,
      matchRowsConflict, bump_gaps, bump_skill, get_job_by_id, substrOf, lowerString,
      unrelatedRoles, db2s, job2, env5, vs5, vs5a, cfgD, Except.map, List.enum,
      List.enumFrom, List.filterMap, List.filter, reduceCtorEq, List.cons_ne_nil, ne_eq]

/-- Witness for C5's universally quantified part at a concrete database:
job 1 of the C5 database is active and unmatched, so it is returned (and
re-embedded) by every run. -/
theorem C5_reembeds_unmatched_witness :
    job2 ∈ db2s.jobs ∧ job2 ∈ get_unmatched_jobs db2s 200 :=
  ⟨by decide,
   C5_reembeds_unmatched.1 db2s 200 job2 (by decide) (by decide)
     (by intro r hr; simp [db2s] at hr) (by decide)⟩

/-- Counterexample to C4 as stated: a per-item persistence failure — a
database error raised inside `bump_skill` while recording an admitted
match's skill gap — propagates out of `run()` instead of being caught, so
`run` does not return a summary dict. -/
theorem C4_counterexample :
    JobMatcher_run cfgD env4 db4 vs4 = .error "sqlite3 error in bump_skill" ∧
    JobMatcher_run cfgD env4f db6 vs4f = .error "float() raised in _final_score" := by
  constructor
  · norm_num [JobMatcher_run, get_unmatched_jobs, index_jobs, job_to_text, add_job_vector,
      fit_dim, vs_save, vs_flush, match_resume, get_resume_vector, faiss_search, dotQ,
      ipOrder, hitOfRaw, insSortBy, insSortGo, dictGet, dictSet, get_active_resume,
      process_hits, scored_match, with_final, rerank_update, rerank_band, llm_rerank,
      pyFloat, build_match, calculate_role_match, final_score_fn, round4, save_match,
      matchRowsConflict, bump_gaps, bump_skill, get_job_by_id, substrOf, lowerString,
      unrelatedRoles, db4, job4, env4, vs4, cfgD, Except.map, List.enum,
      List.enumFrom, List.filterMap, List.filter, reduceCtorEq, List.cons_ne_nil, ne_eq]
  · norm_num [JobMatcher_run, get_unmatched_jobs, index_jobs, job_to_text, add_job_vector,
      fit_dim, vs_save, vs_flush, match_resume, get_resume_vector, faiss_search, dotQ,
      ipOrder, hitOfRaw, insSortBy, insSortGo, dictGet, dictSet, get_active_resume,
      process_hits, scored_match, with_final, rerank_update, rerank_band, llm_rerank,
      pyFloat, build_match, calculate_role_match, final_score_fn, round4, save_match,
      matchRowsConflict, bump_gaps, bump_skill, get_job_by_id, substrOf, lowerString,
      unrelatedRoles, db6, job6, env4f, vs4f, cfgD, Except.map, List.enum,
      List.enumFrom, List.filterMap, List.filter, reduceCtorEq, List.cons_ne_nil, ne_eq]

/-! ## Skill overlap and gap accounting (claim C7) -/

theorem setEnum_length {enum base : List String} (hb : base.Nodup)
    (h : SetEnum enum base) : enum.length = base.length :=
  (List.perm_of_nodup_nodup_toFinset_eq h.1 hb
    (by ext a; simp [List.mem_toFinset, h.2 a])).length_eq

theorem inter_set_nodup (job : Job) (resume : Option Resume) :
    (inter_set job resume).Nodup :=
  (List.nodup_dedup _).filter _

theorem diff_set_nodup (job : Job) (resume : Option Resume) :
    (diff_set job resume).Nodup :=
  (List.nodup_dedup _).filter _

/-- C7 (amended): for any Python-set iteration orders of the two skill
sets, the stored `skill_overlap` is the case-insensitive intersection of
candidate skills (+ tech stack) with the job's required skills CAPPED TO 8
elements, and `skill_gaps` is the case-insensitive difference capped to 6
— each in the (unspecified) set iteration order, not the job-list order;
they coincide with the full intersection/difference exactly when those
fit inside the caps. -/
theorem C7_skill_sets (job : Job) (score : ℚ) (resume : Option Resume)
    (oEnum gEnum : List String)
    (ho : SetEnum oEnum (inter_set job resume))
    (hg : SetEnum gEnum (diff_set job resume)) :
    (build_match job score resume oEnum gEnum).skill_overlap = oEnum.take 8 ∧
    (build_match job score resume oEnum gEnum).skill_gaps = gEnum.take 6 ∧
    (∀ x ∈ (build_match job score resume oEnum gEnum).skill_overlap,
        x ∈ inter_set job resume) ∧
    (∀ x ∈ (build_match job score resume oEnum gEnum).skill_gaps,
        x ∈ diff_set job resume) ∧
    ((inter_set job resume).length ≤ 8 →
        ∀ x, x ∈ (build_match job score resume oEnum gEnum).skill_overlap ↔
          x ∈ inter_set job resume) ∧
    ((diff_set job resume).length ≤ 6 →
        ∀ x, x ∈ (build_match job score resume oEnum gEnum).skill_gaps ↔
          x ∈ diff_set job resume) ∧
    (build_match job score resume oEnum gEnum).skill_overlap.length =
      min 8 (inter_set job resume).length ∧
    (build_match job score resume oEnum gEnum).skill_gaps.length =
      min 6 (diff_set job resume).length := by
  have hov : (build_match job score resume oEnum gEnum).skill_overlap = oEnum.take 8 := by
    simp [build_match]
  have hgp : (build_match job score resume oEnum gEnum).skill_gaps = gEnum.take 6 := by
    simp [build_match]
  have holen := setEnum_length (inter_set_nodup job resume) ho
  have hglen := setEnum_length (diff_set_nodup job resume) hg
  refine ⟨hov, hgp, ?_, ?_, ?_, ?_, ?_, ?_⟩
  · intro x hx
    rw [hov] at hx
    exact (ho.2 x).1 (List.mem_of_mem_take hx)
  · intro x hx
    rw [hgp] at hx
    exact (hg.2 x).1 (List.mem_of_mem_take hx)
  · intro hlen x
    rw [hov, List.take_of_length_le (by omega)]
    exact ho.2 x
  · intro hlen x
    rw [hgp, List.take_of_length_le (by omega)]
    exact hg.2 x
  · rw [hov, List.length_take, holen]
  · rw [hgp, List.length_take, hglen]

theorem C7ex_inter : inter_set job7ex (some res7ex) = ["python"] := by decide

theorem C7ex_diff : diff_set job7ex (some res7ex) = ["sql"] := by decide

/-- Witness for C7's theorem at the claim's worked example: overlap
["python"], gaps ["sql"] (case folded). -/
theorem C7_skill_sets_witness :
    inter_set job7ex (some res7ex) = ["python"] ∧
    diff_set job7ex (some res7ex) = ["sql"] ∧
    (build_match job7ex (8/10) (some res7ex) ["python"] ["sql"]).skill_overlap =
      (["python"] : List String).take 8 ∧
    (build_match job7ex (8/10) (some res7ex) ["python"] ["sql"]).skill_gaps =
      (["sql"] : List String).take 6 :=
  ⟨C7ex_inter, C7ex_diff,
   (C7_skill_sets job7ex (8/10) (some res7ex) ["python"] ["sql"]
     ⟨by decide, fun x => by rw [C7ex_inter]⟩
     ⟨by decide, fun x => by rw [C7ex_diff]⟩).1,
   (C7_skill_sets job7ex (8/10) (some res7ex) ["python"] ["sql"]
     ⟨by decide, fun x => by rw [C7ex_inter]⟩
     ⟨by decide, fun x => by rw [C7ex_diff]⟩).2.1⟩

/-- Counterexample to C7 as stated: with a 9-element case-insensitive
intersection, the stored `skill_overlap` (capped by `overlap[:8]`) has
only 8 elements under any set iteration order — here the order matching
the job list drops "s9" — so it does not equal the intersection. -/
theorem C7_counterexample :
    (inter_set job7 (some res7)).length = 9 ∧
    (build_match job7 (8/10) (some res7) (inter_set job7 (some res7))
      (diff_set job7 (some res7))).skill_overlap.length = 8 ∧
    "s9" ∈ inter_set job7 (some res7) ∧
    "s9" ∉ (build_match job7 (8/10) (some res7) (inter_set job7 (some res7))
      (diff_set job7 (some res7))).skill_overlap := by
  refine ⟨by decide, by decide, by decide, by decide⟩
